import Mathlib

/-!
# Shallow embedding of the invoice-supabase offline sync core

This file embeds the offline mutation queue, stock reconciliation engine and
sync manager of the repository (src/offline/idb.js, src/services/stockService.js,
src/offline/sync.js) as executable Lean definitions, and proves the testable
properties stated in the specification against them.

Remote (supabase) tables are modelled by `RemoteDB`; each remote call site is
given an error-injection flag in `StockEnv` / `RemoteEnv`, mirroring the
per-call structured `{data, error}` results of the remote contract.  JS numbers
holding quantities, prices and stocks are modelled as `Int` (all arithmetic in
the source on these fields is exact integer arithmetic).
-/

namespace InvoiceApp

/-- A row of the remote `products` table: `{id, name, price, stock}`. -/
structure Product where
  id : Nat
  name : String
  price : Int
  stock : Int
deriving Repr, DecidableEq

/-- A row of the remote `invoices` table. -/
structure InvoiceRow where
  id : Nat
  customer_name : String
deriving Repr, DecidableEq

/-- A row of the remote `invoice_items` table. -/
structure ItemRow where
  id : Nat
  invoice_id : Nat
  product_id : Nat
  quantity : Int
  custom_price : Option Int
deriving Repr, DecidableEq

/-- The remote relational store (supabase) as seen by the sync core. -/
structure RemoteDB where
  products : List Product
  invoices : List InvoiceRow
  invoice_items : List ItemRow
deriving Repr, DecidableEq

/-- Error-injection flags for the remote reads performed by stockService.js.
A flag set to `true` makes the corresponding supabase call report an error. -/
structure StockEnv where
  productSingleErr : Bool
  itemsSelectErr : Bool
  allProductsErr : Bool
  allItemsSelectErr : Bool
  nameSelectErr : Bool
deriving Repr, DecidableEq

/-- The env with no injected read failures. -/
def StockEnv.ok : StockEnv := ⟨false, false, false, false, false⟩

/-- Result shape of `calculateRemainingStock`: `{remaining, error}`. -/
structure RemainingResult where
  remaining : Int
  error : Option String
deriving Repr, DecidableEq

/-- Embeds `supabase.from('products').select('stock').eq('id', productId).single()`:
errors when the read fails or when the filtered row set is not a singleton. -/
def productStockSingle (env : StockEnv) (db : RemoteDB) (productId : Nat) :
    Except String Int :=
  if env.productSingleErr then .error "product query failed"
  else
    match db.products.filter (fun p => p.id = productId) with
    | [p] => .ok p.stock
    | _ => .error "JSON object requested, multiple (or no) rows returned"

/-- stockService.js `calculateRemainingStock(productId)`:
reads the product's stock, then sums `Number(item.quantity || 0)` over the
`invoice_items` rows with this `product_id` and returns
`{remaining: stock - totalUsed, error: null}`.  On a product-read error it
returns `{remaining: 0, error}`; on an items-read error it returns
`{remaining: product.stock, error: null}`.  No clamping at zero is applied. -/
def calculateRemainingStock (env : StockEnv) (db : RemoteDB) (productId : Nat) :
    RemainingResult :=
  match productStockSingle env db productId with
  | .error e => ⟨0, some e⟩
  | .ok stock =>
    if env.itemsSelectErr then ⟨stock, none⟩
    else
      let items := db.invoice_items.filter (fun it => it.product_id = productId)
      let totalUsed := items.foldl (fun sum it => sum + it.quantity) 0
      ⟨stock - totalUsed, none⟩

/-- JS `Map.get(k)` with the source's `|| 0` default, over an association list. -/
def mapGetD (m : List (Nat × Int)) (k : Nat) : Int :=
  match m.find? (fun kv => kv.1 = k) with
  | some kv => kv.2
  | none => 0

/-- JS `Map.set(k, v)`: replaces the binding of `k` when present, appends otherwise. -/
def mapSet (m : List (Nat × Int)) (k : Nat) (v : Int) : List (Nat × Int) :=
  if m.any (fun kv => kv.1 = k) then
    m.map (fun kv => if kv.1 = k then (k, v) else kv)
  else m ++ [(k, v)]

/-- The `usedByProduct` map built by `calculateAllRemainingStock`:
`usedByProduct.set(pid, (usedByProduct.get(pid) || 0) + Number(item.quantity || 0))`
folded over all invoice items. -/
def buildUsedByProduct (items : List ItemRow) : List (Nat × Int) :=
  items.foldl (fun m it => mapSet m it.product_id (mapGetD m it.product_id + it.quantity)) []

/-- Result shape of `calculateAllRemainingStock`: products paired with their
computed `remaining` field. -/
structure AllRemainingResult where
  data : List (Product × Int)
  error : Option String
deriving Repr, DecidableEq

/-- stockService.js `calculateAllRemainingStock()`: reads all products and all
invoice items, aggregates used quantities per product in a map, and attaches
`remaining = Number(p.stock || 0) - (usedByProduct.get(p.id) || 0)` to every
product (negative values allowed).  On an items-read error it falls back to
`remaining = Number(p.stock)` for every product. -/
def calculateAllRemainingStock (env : StockEnv) (db : RemoteDB) : AllRemainingResult :=
  if env.allProductsErr then ⟨[], some "products query failed"⟩
  else if env.allItemsSelectErr then
    ⟨db.products.map (fun p => (p, p.stock)), none⟩
  else
    let used := buildUsedByProduct db.invoice_items
    ⟨db.products.map (fun p => (p, p.stock - mapGetD used p.id)), none⟩

/-- An entry of the `items` array handed to invoice operations:
`{product_id, quantity}` (plus the nullable `custom_price` carried by the
custom-price variant of the code). -/
structure InvoiceItemReq where
  product_id : Nat
  quantity : Int
  custom_price : Option Int
deriving Repr, DecidableEq

/-- Embeds `supabase.from('products').select('name').eq('id', pid).single()` inside
`validateStockForInvoice`; its error is ignored by the source, only
`product?.name` is used. -/
def productNameLookup (env : StockEnv) (db : RemoteDB) (productId : Nat) : Option String :=
  if env.nameSelectErr then none
  else
    match db.products.filter (fun p => p.id = productId) with
    | [p] => some p.name
    | _ => none

/-- Result shape of `validateStockForInvoice`. -/
structure ValidationResult where
  valid : Bool
  errors : List String
  warnings : List String
  error : Option String
deriving Repr, DecidableEq

/-- One loop iteration of `validateStockForInvoice`: pushes an error string
when the remaining-stock read fails, otherwise a warning string when
`remaining < item.quantity`. -/
def validateStep (env : StockEnv) (db : RemoteDB)
    (acc : List String × List String) (item : InvoiceItemReq) :
    List String × List String :=
  let r := calculateRemainingStock env db item.product_id
  match r.error with
  | some msg =>
    (acc.1 ++ ["Error checking stock for product " ++ toString item.product_id ++ ": " ++ msg],
     acc.2)
  | none =>
    let productName := (productNameLookup env db item.product_id).getD
      ("Product " ++ toString item.product_id)
    if r.remaining < item.quantity then
      (acc.1,
       acc.2 ++ ["Insufficient stock for " ++ productName ++ ". Current remaining: " ++
         toString r.remaining ++ ", Requested: " ++ toString item.quantity ++
         ". Stock will be: " ++ toString (r.remaining - item.quantity)])
    else acc

/-- stockService.js `validateStockForInvoice(items)`: walks the items calling
`calculateRemainingStock`, collecting error strings and insufficient-stock
warnings, and always returns `{valid: true, errors, warnings, error: null}`
(negative stock is allowed; the function never blocks). -/
def validateStockForInvoice (env : StockEnv) (db : RemoteDB)
    (items : List InvoiceItemReq) : ValidationResult :=
  let ew := items.foldl (validateStep env db) ([], [])
  ⟨true, ew.1, ew.2, none⟩

/-- Result shape of `updateStockForInvoice` / `restoreStockForDeletedInvoice`. -/
structure StockOpResult where
  success : Bool
  error : Option String
deriving Repr, DecidableEq

/-- stockService.js `updateStockForInvoice(oldItems, newItems)`: computes
per-product quantity differences but performs no store mutation (remaining
stock is always derived); it reports `{success: true, error: null}`. -/
def updateStockForInvoice (_oldItems _newItems : List InvoiceItemReq) : StockOpResult :=
  ⟨true, none⟩

/-- stockService.js `restoreStockForDeletedInvoice(items)`: logs only; stock
is derived, so it reports `{success: true, error: null}`. -/
def restoreStockForDeletedInvoice (_items : List InvoiceItemReq) : StockOpResult :=
  ⟨true, none⟩

/-- The `updates` object carried by `product:update` (product columns) and
`invoice:update` (customer_name and/or replacement items) payloads; all
fields are optional, mirroring the dynamic JS object. -/
structure UpdatesObj where
  name : Option String
  price : Option Int
  stock : Option Int
  customer_name : Option String
  items : Option (List InvoiceItemReq)
deriving Repr, DecidableEq

/-- The kind-specific payload of a queue item, embedded as one record of
fields (a JS object bag); each kind reads only the fields its handler uses. -/
structure SyncPayload where
  id : Nat
  name : String
  price : Int
  stock : Int
  updates : UpdatesObj
  customerName : String
  items : List InvoiceItemReq
  invoiceId : Nat
  itemId : Nat
  customPrice : Option Int
deriving Repr, DecidableEq

/-- A payload with every field at its neutral value. -/
def SyncPayload.empty : SyncPayload :=
  ⟨0, "", 0, 0, ⟨none, none, none, none, none⟩, "", [], 0, 0, none⟩

/-- A record of the durable `sync_queue` store:
`{id (auto-incremented), kind, payload, timestamp, retryCount}`.
`retryCount` is optional because the drain loop reads it as
`item.retryCount || 0`. -/
structure SyncItem where
  id : Nat
  kind : String
  payload : SyncPayload
  timestamp : Nat
  retryCount : Option Nat
deriving Repr, DecidableEq

/-- The durable `sync_queue` object store: records in key order plus the
state of the auto-increment key generator. -/
structure QueueStore where
  items : List SyncItem
  nextId : Nat
deriving Repr, DecidableEq

/-- idb.js `enqueueSync(syncItem)`: spreads `{kind, payload}` into a record,
stamps `timestamp: Date.now()` and `retryCount: 0` (the spread is overridden
by these two assignments), and `db.add`s it to `sync_queue`, which assigns the
next auto-increment key.  Returns the updated durable store. -/
def enqueueSync (store : QueueStore) (kind : String) (payload : SyncPayload)
    (now : Nat) : QueueStore :=
  let syncData : SyncItem := ⟨store.nextId, kind, payload, now, some 0⟩
  ⟨store.items ++ [syncData], store.nextId + 1⟩

/-- idb.js `getSyncQueue()`: `db.getAll('sync_queue')`, records in ascending
key order (the store keeps items sorted by id since keys only grow). -/
def getSyncQueue (store : QueueStore) : List SyncItem :=
  store.items

/-- idb.js `removeFromSyncQueue(id)`: `db.delete('sync_queue', id)`. -/
def removeFromSyncQueue (store : QueueStore) (id : Nat) : QueueStore :=
  { store with items := store.items.filter (fun it => decide (¬ it.id = id)) }

/-- idb.js `updateSyncQueueItem(id, updates)` for the one update shape the
code ever sends, `{retryCount}`: reads the record and `put`s it back with the
new retry count; a missing id leaves the store unchanged. -/
def updateSyncQueueItem (store : QueueStore) (id : Nat) (retryCount : Nat) : QueueStore :=
  let upd := fun (it : SyncItem) =>
    if it.id = id then { it with retryCount := some retryCount } else it
  { store with items := store.items.map upd }

/-- idb.js `getPendingSyncCount()`: `db.count('sync_queue')`. -/
def getPendingSyncCount (store : QueueStore) : Nat :=
  store.items.length

/-- A user-visible toast emitted by the sync manager. -/
inductive Notification where
  | success (msg : String)
  | info (msg : String)
  | warning (msg : String)
  | error (msg : String)
deriving Repr, DecidableEq

/-- What the per-item body of the drain loop did for one queue item:
`processSyncItem` resolved `true`, resolved `false`, or the body threw
(a storage operation rejected) and control reached the catch block. -/
inductive ReplayOutcome where
  | success
  | failure
  | thrown
deriving Repr, DecidableEq

/-- Suspension points and flag assignments of one `syncPendingChanges` call,
in program order. -/
inductive SyncEvent where
  | setFlag
  | readCount
  | readQueue
  | replay (id : Nat)
  | clearFlag
deriving Repr, DecidableEq

/-- The quarantine toast of sync.js:
`Failed to sync ${item.kind} after ${retryCount} attempts. Check data manually.` -/
def quarantineMsg (kind : String) (retryCount : Nat) : String :=
  "Failed to sync " ++ kind ++ " after " ++ toString retryCount ++
    " attempts. Check data manually."

/-- Accumulator of the drain loop: queue store plus success/error tallies,
emitted toasts and the replay trace. -/
structure DrainAcc where
  store : QueueStore
  successCount : Nat
  errorCount : Nat
  toasts : List Notification
  events : List SyncEvent
deriving Repr, DecidableEq

/-- One iteration of the `for (const item of queue)` loop in
`syncPendingChanges`: on `true` the item is removed and tallied as success;
on `false` only the error tally grows; when the body throws, the catch block
increments `retryCount = (item.retryCount || 0) + 1`, writes it back, and if
`retryCount >= 3` removes the item and emits the quarantine toast. -/
def drainStep (outcome : SyncItem → ReplayOutcome) (acc : DrainAcc) (item : SyncItem) :
    DrainAcc :=
  let acc := { acc with events := acc.events ++ [SyncEvent.replay item.id] }
  match outcome item with
  | .success =>
    { acc with store := removeFromSyncQueue acc.store item.id,
               successCount := acc.successCount + 1 }
  | .failure =>
    { acc with errorCount := acc.errorCount + 1 }
  | .thrown =>
    let retryCount := item.retryCount.getD 0 + 1
    let store1 := updateSyncQueueItem acc.store item.id retryCount
    if 3 ≤ retryCount then
      { acc with store := removeFromSyncQueue store1 item.id,
                 errorCount := acc.errorCount + 1,
                 toasts := acc.toasts ++ [Notification.error (quarantineMsg item.kind retryCount)] }
    else
      { acc with store := store1, errorCount := acc.errorCount + 1 }

/-- The sync manager's mutable fields relevant to a drain pass, together with
the durable queue store it operates on. -/
structure SyncManagerState where
  isOnline : Bool
  syncInProgress : Bool
  queue : QueueStore
deriving Repr, DecidableEq

/-- Result of one `syncPendingChanges` (or `manualSync`) call. -/
structure SyncResult where
  state : SyncManagerState
  toasts : List Notification
  events : List SyncEvent
deriving Repr, DecidableEq

/-- sync.js `SyncManager.syncPendingChanges()`: returns immediately when
`syncInProgress` is set or offline; otherwise sets `syncInProgress` (before
the first await), reads the pending count (early return when zero), reads the
queue snapshot, runs the drain loop over it, emits aggregate toasts, and —
in the `finally` block, also on a thrown queue read (`readThrows`) — clears
`syncInProgress`. -/
def syncPendingChanges (st : SyncManagerState) (readThrows : Bool)
    (outcome : SyncItem → ReplayOutcome) : SyncResult :=
  if st.syncInProgress || !st.isOnline then ⟨st, [], []⟩
  else
    let evs0 : List SyncEvent := [SyncEvent.setFlag, SyncEvent.readCount]
    let pendingCount := getPendingSyncCount st.queue
    if pendingCount = 0 then
      ⟨{ st with syncInProgress := false }, [], evs0 ++ [SyncEvent.clearFlag]⟩
    else if readThrows then
      ⟨{ st with syncInProgress := false },
       [Notification.error "Sync failed: queue read failed"],
       evs0 ++ [SyncEvent.readQueue, SyncEvent.clearFlag]⟩
    else
      let queue := getSyncQueue st.queue
      let acc := queue.foldl (drainStep outcome) ⟨st.queue, 0, 0, [], []⟩
      let toasts1 := acc.toasts ++
        (if 0 < acc.successCount then
          [Notification.success ("✅ Synced " ++ toString acc.successCount ++
            " changes successfully")] else []) ++
        (if 0 < acc.errorCount then
          [Notification.error ("❌ Failed to sync " ++ toString acc.errorCount ++
            " changes. Check console for details.")] else [])
      ⟨{ st with queue := acc.store, syncInProgress := false },
       toasts1, evs0 ++ [SyncEvent.readQueue] ++ acc.events ++ [SyncEvent.clearFlag]⟩

/-- sync.js `SyncManager.manualSync()`: fails fast with an error toast when
offline, otherwise emits the start toast and awaits `syncPendingChanges`. -/
def manualSync (st : SyncManagerState) (readThrows : Bool)
    (outcome : SyncItem → ReplayOutcome) : SyncResult :=
  if !st.isOnline then
    ⟨st, [Notification.error "Cannot sync while offline"], []⟩
  else
    let r := syncPendingChanges st readThrows outcome
    ⟨r.state, [Notification.info "🔄 Manual sync started..."] ++ r.toasts, r.events⟩

/-- Result shape of `getSyncQueueStatus`. -/
structure QueueStatus where
  total : Nat
  pending : Nat
  retrying : Nat
  failed : Nat
deriving Repr, DecidableEq

/-- sync.js `SyncManager.getSyncQueueStatus()`: partitions the queue by
`item.retryCount || 0` into pending (= 0), retrying (> 0 and < 3) and
failed (>= 3) buckets. -/
def getSyncQueueStatus (store : QueueStore) : QueueStatus :=
  let queue := getSyncQueue store
  { total := queue.length
    pending := (queue.filter (fun item => decide (item.retryCount.getD 0 = 0))).length
    retrying := (queue.filter (fun item =>
      decide (0 < item.retryCount.getD 0 ∧ item.retryCount.getD 0 < 3))).length
    failed := (queue.filter (fun item => decide (3 ≤ item.retryCount.getD 0))).length }

/-- The remote call sites of `processSyncItem`, for tracing which remote
effects a replay performed and in which order. -/
inductive RemoteCall where
  | insertProduct
  | updateProduct
  | deleteProduct
  | stockValidation
  | insertInvoice
  | insertInvoiceItems
  | updateInvoiceName
  | fetchCurrentItems
  | deleteExistingItems
  | insertNewItems
  | cacheRefresh
  | fetchItemsToDelete
  | deleteInvoiceItems
  | deleteInvoice
  | updateItemPrice
deriving Repr, DecidableEq

/-- Error-injection flags for the remote mutations of `processSyncItem`, plus
the keys the remote store assigns to inserted rows. -/
structure RemoteEnv where
  stock : StockEnv
  productsInsertErr : Bool
  productsUpdateErr : Bool
  productsDeleteErr : Bool
  invoicesInsertErr : Bool
  newInvoiceId : Nat
  newItemIdBase : Nat
  invoiceItemsInsertErr : Bool
  invoicesUpdateErr : Bool
  currentItemsFetchErr : Bool
  existingItemsDeleteErr : Bool
  newItemsInsertErr : Bool
  cacheRefreshThrows : Bool
  itemsFetchForDeleteErr : Bool
  invoiceItemsDeleteErr : Bool
  invoicesDeleteErr : Bool
  itemPriceUpdateErr : Bool
deriving Repr, DecidableEq

/-- An env in which every remote call succeeds. -/
def RemoteEnv.ok (newInvoiceId newItemIdBase : Nat) : RemoteEnv :=
  ⟨StockEnv.ok, false, false, false, false, newInvoiceId, newItemIdBase,
   false, false, false, false, false, false, false, false, false, false⟩

/-- Result of one `processSyncItem` call: its boolean, the remote store it
leaves behind, and the trace of remote calls it made. -/
structure ProcessResult where
  ok : Bool
  db : RemoteDB
  calls : List RemoteCall
deriving Repr, DecidableEq

/-- Applying a `product:update` payload's `updates` object to a product row. -/
def applyProductUpdates (u : UpdatesObj) (p : Product) : Product :=
  { p with name := u.name.getD p.name, price := u.price.getD p.price,
           stock := u.stock.getD p.stock }

/-- The `invoice_items` rows built from an items array
(`invoice_id, product_id, quantity, custom_price`), keyed by the remote
store's generated ids. -/
def itemReqRows (invoiceId baseId : Nat) (items : List InvoiceItemReq) : List ItemRow :=
  items.enum.map (fun pr => ⟨baseId + pr.1, invoiceId, pr.2.product_id,
    pr.2.quantity, pr.2.custom_price⟩)

/-- Case `product:create`: `insert(item.payload)` into `products`. -/
def processProductCreate (env : RemoteEnv) (db : RemoteDB) (payload : SyncPayload) :
    ProcessResult :=
  if env.productsInsertErr then ⟨false, db, [RemoteCall.insertProduct]⟩
  else
    let row : Product := ⟨payload.id, payload.name, payload.price, payload.stock⟩
    ⟨true, { db with products := db.products ++ [row] }, [RemoteCall.insertProduct]⟩

/-- Case `product:update`: `update(payload.updates).eq('id', payload.id)`. -/
def processProductUpdate (env : RemoteEnv) (db : RemoteDB) (payload : SyncPayload) :
    ProcessResult :=
  if env.productsUpdateErr then ⟨false, db, [RemoteCall.updateProduct]⟩
  else
    let upd := fun (p : Product) =>
      if p.id = payload.id then applyProductUpdates payload.updates p else p
    ⟨true, { db with products := db.products.map upd }, [RemoteCall.updateProduct]⟩

/-- Case `product:delete`: `delete().eq('id', payload.id)`. -/
def processProductDelete (env : RemoteEnv) (db : RemoteDB) (payload : SyncPayload) :
    ProcessResult :=
  if env.productsDeleteErr then ⟨false, db, [RemoteCall.deleteProduct]⟩
  else
    ⟨true, { db with products := db.products.filter (fun p => decide (¬ p.id = payload.id)) },
     [RemoteCall.deleteProduct]⟩

/-- Case `invoice:create`: validate stock, insert the invoice row, insert
the invoice_items rows, run the (no-op) stock hook; any sub-step error makes
the replay return `false` without attempting later sub-steps. -/
def processInvoiceCreate (env : RemoteEnv) (db : RemoteDB) (payload : SyncPayload) :
    ProcessResult :=
  let v := validateStockForInvoice env.stock db payload.items
  if v.error.isSome then ⟨false, db, [RemoteCall.stockValidation]⟩
  else if !v.valid then ⟨false, db, [RemoteCall.stockValidation]⟩
  else if env.invoicesInsertErr then
    ⟨false, db, [RemoteCall.stockValidation, RemoteCall.insertInvoice]⟩
  else
    let db1 := { db with invoices := db.invoices ++ [⟨env.newInvoiceId, payload.customerName⟩] }
    if env.invoiceItemsInsertErr then
      ⟨false, db1,
       [RemoteCall.stockValidation, RemoteCall.insertInvoice, RemoteCall.insertInvoiceItems]⟩
    else
      let rows := itemReqRows env.newInvoiceId env.newItemIdBase payload.items
      let _ := updateStockForInvoice [] payload.items
      ⟨true, { db1 with invoice_items := db1.invoice_items ++ rows },
       [RemoteCall.stockValidation, RemoteCall.insertInvoice, RemoteCall.insertInvoiceItems]⟩

/-- Case `invoice:update`: optionally update `customer_name`; when a
replacement items array is present, fetch the current items, validate stock,
delete the existing items, insert the replacements and run the stock hook
(errors accumulate in `hasErrors`); on the all-success path refresh the local
cache from remote (its own failure is caught) and return `true`. -/
def processInvoiceUpdate (env : RemoteEnv) (db : RemoteDB) (payload : SyncPayload) :
    ProcessResult :=
  let nameStep : Bool × RemoteDB × List RemoteCall :=
    match payload.updates.customer_name with
    | some cname =>
      if env.invoicesUpdateErr then (true, db, [RemoteCall.updateInvoiceName])
      else
        let upd := fun (inv : InvoiceRow) =>
          if inv.id = payload.invoiceId then { inv with customer_name := cname } else inv
        (false, { db with invoices := db.invoices.map upd }, [RemoteCall.updateInvoiceName])
    | none => (false, db, [])
  let hasErrors1 := nameStep.1
  let db1 := nameStep.2.1
  let calls1 := nameStep.2.2
  match payload.updates.items with
  | none =>
    if hasErrors1 then ⟨false, db1, calls1⟩
    else ⟨true, db1, calls1 ++ [RemoteCall.cacheRefresh]⟩
  | some newItems =>
    let fetch : Bool × List InvoiceItemReq :=
      if env.currentItemsFetchErr then (true, [])
      else
        (false, (db1.invoice_items.filter (fun r => r.invoice_id = payload.invoiceId)).map
          (fun r => ⟨r.product_id, r.quantity, none⟩))
    let hasErrors2 := hasErrors1 || fetch.1
    let calls3 := calls1 ++ [RemoteCall.fetchCurrentItems, RemoteCall.stockValidation]
    let v := validateStockForInvoice env.stock db1 newItems
    if v.error.isSome then ⟨false, db1, calls3⟩
    else if !v.valid then ⟨false, db1, calls3⟩
    else if env.existingItemsDeleteErr then
      ⟨false, db1, calls3 ++ [RemoteCall.deleteExistingItems]⟩
    else
      let kept := db1.invoice_items.filter (fun r => decide (¬ r.invoice_id = payload.invoiceId))
      let db2 := { db1 with invoice_items := kept }
      if env.newItemsInsertErr then
        ⟨false, db2, calls3 ++ [RemoteCall.deleteExistingItems, RemoteCall.insertNewItems]⟩
      else
        let rows := itemReqRows payload.invoiceId env.newItemIdBase newItems
        let db3 := { db2 with invoice_items := db2.invoice_items ++ rows }
        let _ := updateStockForInvoice fetch.2 newItems
        if hasErrors2 then
          ⟨false, db3, calls3 ++ [RemoteCall.deleteExistingItems, RemoteCall.insertNewItems]⟩
        else
          ⟨true, db3, calls3 ++ [RemoteCall.deleteExistingItems, RemoteCall.insertNewItems,
            RemoteCall.cacheRefresh]⟩

/-- Case `invoice:delete`: fetch the invoice's items (read error ignored),
delete the items (`return false` on error, invoice untouched), then delete
the invoice row (`return false` on error), then the no-op stock restore. -/
def processInvoiceDelete (env : RemoteEnv) (db : RemoteDB) (payload : SyncPayload) :
    ProcessResult :=
  let itemsToDelete : List InvoiceItemReq :=
    if env.itemsFetchForDeleteErr then []
    else
      (db.invoice_items.filter (fun r => r.invoice_id = payload.invoiceId)).map
        (fun r => ⟨r.product_id, r.quantity, none⟩)
  let calls0 := [RemoteCall.fetchItemsToDelete]
  if env.invoiceItemsDeleteErr then ⟨false, db, calls0 ++ [RemoteCall.deleteInvoiceItems]⟩
  else
    let keptItems := db.invoice_items.filter (fun r => decide (¬ r.invoice_id = payload.invoiceId))
    let db1 := { db with invoice_items := keptItems }
    if env.invoicesDeleteErr then
      ⟨false, db1, calls0 ++ [RemoteCall.deleteInvoiceItems, RemoteCall.deleteInvoice]⟩
    else
      let keptInvoices := db1.invoices.filter (fun inv => decide (¬ inv.id = payload.invoiceId))
      let db2 := { db1 with invoices := keptInvoices }
      let _ := restoreStockForDeletedInvoice itemsToDelete
      ⟨true, db2, calls0 ++ [RemoteCall.deleteInvoiceItems, RemoteCall.deleteInvoice]⟩

/-- Case `invoice_item:update_price`: update one item's `custom_price`
scoped by both the item id and the invoice id. -/
def processItemPriceUpdate (env : RemoteEnv) (db : RemoteDB) (payload : SyncPayload) :
    ProcessResult :=
  if env.itemPriceUpdateErr then ⟨false, db, [RemoteCall.updateItemPrice]⟩
  else
    let upd := fun (r : ItemRow) =>
      if r.id = payload.itemId ∧ r.invoice_id = payload.invoiceId then
        { r with custom_price := payload.customPrice }
      else r
    ⟨true, { db with invoice_items := db.invoice_items.map upd },
     [RemoteCall.updateItemPrice]⟩

/-- sync.js `SyncManager.processSyncItem(item)`: the `switch (item.kind)`
dispatch over the seven handled kinds; an unknown kind falls through to the
default case, which returns `false` having made no remote call.  Every error
is caught inside this function, so it resolves to a boolean and never throws. -/
def processSyncItem (env : RemoteEnv) (db : RemoteDB) (item : SyncItem) : ProcessResult :=
  if item.kind = "product:create" then processProductCreate env db item.payload
  else if item.kind = "product:update" then processProductUpdate env db item.payload
  else if item.kind = "product:delete" then processProductDelete env db item.payload
  else if item.kind = "invoice:create" then processInvoiceCreate env db item.payload
  else if item.kind = "invoice:update" then processInvoiceUpdate env db item.payload
  else if item.kind = "invoice:delete" then processInvoiceDelete env db item.payload
  else if item.kind = "invoice_item:update_price" then processItemPriceUpdate env db item.payload
  else ⟨false, db, []⟩

/-- The seven queue-item kinds handled by `processSyncItem`. -/
def handledKinds : List String :=
  ["product:create", "product:update", "product:delete",
   "invoice:create", "invoice:update", "invoice:delete",
   "invoice_item:update_price"]

/-- The warnings contributed by one item of `validateStockForInvoice`
(the second component of one `validateStep` from empty accumulators). -/
def itemWarning (env : StockEnv) (db : RemoteDB) (it : InvoiceItemReq) : List String :=
  (validateStep env db ([], []) it).2

/-- What one drain-loop iteration leaves in the queue for a given item:
`none` when the item is removed (successful replay, or quarantine at the
retry ceiling), otherwise the record that remains. -/
def drainItemResult (o : SyncItem → ReplayOutcome) (it : SyncItem) : Option SyncItem :=
  match o it with
  | .success => none
  | .failure => some it
  | .thrown =>
    let rc := it.retryCount.getD 0 + 1
    if 3 ≤ rc then none else some { it with retryCount := some rc }

/-- The toasts one drain-loop iteration emits for a given item (only the
quarantine toast is emitted inside the loop). -/
def drainItemToasts (o : SyncItem → ReplayOutcome) (it : SyncItem) : List Notification :=
  match o it with
  | .thrown =>
    let rc := it.retryCount.getD 0 + 1
    if 3 ≤ rc then [Notification.error (quarantineMsg it.kind rc)] else []
  | _ => []

/-- The outcome the drain loop observes when the per-item body never throws:
`processSyncItem`'s boolean decides success vs failure. -/
def derivedOutcome (env : RemoteEnv) (db : RemoteDB) : SyncItem → ReplayOutcome :=
  fun it => if (processSyncItem env db it).ok then ReplayOutcome.success else ReplayOutcome.failure

/-- A remote store with no rows. -/
def emptyRemoteDB : RemoteDB := ⟨[], [], []⟩

/-- Fixture: the product of spec Scenario A. -/
def penProduct : Product := ⟨1, "Pen", 10, 5⟩

/-- Fixture: one product, one invoice, one item using 7 units of product 1. -/
def fixtureDB : RemoteDB := ⟨[penProduct], [⟨3, "Ann"⟩], [⟨1, 3, 1, 7, none⟩]⟩

/-- Fixture: a queued `product:create` intent. -/
def failingItem : SyncItem := ⟨1, "product:create", SyncPayload.empty, 0, some 0⟩

/-- Fixture: a remote env whose `products` insert reports an error. -/
def failingEnv : RemoteEnv := { RemoteEnv.ok 10 100 with productsInsertErr := true }

/-- Fixture: the loop outcome induced by replaying against `failingEnv`
(the body never throws; `processSyncItem` decides success or failure). -/
def failingOutcome : SyncItem → ReplayOutcome := derivedOutcome failingEnv emptyRemoteDB

/-- Fixture: an online, idle manager with `failingItem` queued. -/
def failingState : SyncManagerState := ⟨true, false, ⟨[failingItem], 2⟩⟩

/-- One drain pass against the always-failing remote env. -/
def failingPass (st : SyncManagerState) : SyncManagerState :=
  (syncPendingChanges st false failingOutcome).state

/-- Fixture: two queued product intents and an outcome replaying only the
first successfully. -/
def syncItemA : SyncItem := ⟨1, "product:update", SyncPayload.empty, 0, some 0⟩

/-- Fixture: second queued intent. -/
def syncItemB : SyncItem := ⟨2, "product:delete", SyncPayload.empty, 0, some 0⟩

/-- Fixture: outcome that replays item 1 successfully and fails the rest. -/
def successOnA : SyncItem → ReplayOutcome :=
  fun it => if it.id = 1 then ReplayOutcome.success else ReplayOutcome.failure

/-- Fixture: outcome that reports failure (replay resolves `false`) always. -/
def alwaysFalseOutcome : SyncItem → ReplayOutcome := fun _ => ReplayOutcome.failure

/-- Fixture: an online, idle manager with two items queued. -/
def twoItemState : SyncManagerState := ⟨true, false, ⟨[syncItemA, syncItemB], 3⟩⟩

/-- Fixture: a queued item of an unhandled kind. -/
def bogusItem : SyncItem := ⟨5, "bogus:kind", SyncPayload.empty, 0, some 0⟩

/-- Fixture: an online, idle manager with only the unhandled-kind item queued. -/
def bogusState : SyncManagerState := ⟨true, false, ⟨[bogusItem], 6⟩⟩

/-- Fixture: a queued `invoice:delete` intent for invoice 3. -/
def deleteInvoiceItem : SyncItem :=
  ⟨7, "invoice:delete", { SyncPayload.empty with invoiceId := 3 }, 0, some 0⟩

/-- Fixture: a remote env whose `invoice_items` delete reports an error. -/
def itemsDeleteFailEnv : RemoteEnv := { RemoteEnv.ok 10 100 with invoiceItemsDeleteErr := true }

/-- Fixture: a manager currently mid-pass (`syncInProgress` set). -/
def busyState : SyncManagerState := ⟨true, true, ⟨[syncItemA], 2⟩⟩

/-- Fixture: an online, idle manager with one item queued. -/
def idleState : SyncManagerState := ⟨true, false, ⟨[syncItemA], 2⟩⟩

/-- One drain pass in which the per-item body throws for every item
(the replay-mock-always-fails scenario realised through exceptions). -/
def thrownPass (st : SyncManagerState) : SyncManagerState :=
  (syncPendingChanges st false (fun _ => ReplayOutcome.thrown)).state

/-- The aggregate failure-tally toast of a pass with one failed item. -/
def oneFailureTally : Notification :=
  Notification.error "❌ Failed to sync 1 changes. Check console for details."

/-! ## Supporting lemmas -/

theorem foldl_add_quantity (l : List ItemRow) (init : Int) :
    l.foldl (fun sum it => sum + it.quantity) init = init + (l.map ItemRow.quantity).sum := by
  induction l generalizing init with
  | nil => simp
  | cons a l ih => simp only [List.foldl_cons, List.map_cons, List.sum_cons, ih]; ring

theorem validateStep_snd (env : StockEnv) (db : RemoteDB) (acc : List String × List String)
    (it : InvoiceItemReq) :
    (validateStep env db acc it).2 = acc.2 ++ itemWarning env db it := by
  unfold itemWarning validateStep
  cases h : (calculateRemainingStock env db it.product_id).error with
  | none => simp only [h]; split <;> simp
  | some msg => simp [h]

theorem validate_warnings_eq (env : StockEnv) (db : RemoteDB) :
    ∀ (items : List InvoiceItemReq) (acc : List String × List String),
      (items.foldl (validateStep env db) acc).2 =
        acc.2 ++ items.flatMap (itemWarning env db) := by
  intro items
  induction items with
  | nil => intro acc; simp
  | cons a l ih =>
    intro acc
    simp only [List.foldl_cons, List.flatMap_cons]
    rw [ih, validateStep_snd, List.append_assoc]

theorem itemWarning_ne_nil (env : StockEnv) (db : RemoteDB) (it : InvoiceItemReq)
    (h : (calculateRemainingStock env db it.product_id).error = none) :
    itemWarning env db it ≠ [] ↔
      (calculateRemainingStock env db it.product_id).remaining < it.quantity := by
  unfold itemWarning validateStep
  simp only [h]
  split <;> simp_all

theorem calculateRemainingStock_eq (db : RemoteDB) (p : Product)
    (hp : db.products.filter (fun q => decide (q.id = p.id)) = [p]) :
    calculateRemainingStock StockEnv.ok db p.id =
      ⟨p.stock - ((db.invoice_items.filter (fun it => decide (it.product_id = p.id))).map
        ItemRow.quantity).sum, none⟩ := by
  simp [calculateRemainingStock, productStockSingle, StockEnv.ok, hp, foldl_add_quantity]

/-! ## Claim theorems (stock engine) -/

/-- Claim C2: for every item list, `validateStockForInvoice` reports
`valid = true` (it never blocks an invoice operation), and — when every
per-item stock lookup succeeds — its warnings list is non-empty exactly when
some item's requested quantity exceeds that product's current remaining
stock. -/
theorem validateStock_never_blocks (env : StockEnv) (db : RemoteDB)
    (items : List InvoiceItemReq) :
    (validateStockForInvoice env db items).valid = true ∧
    ((∀ it ∈ items, (calculateRemainingStock env db it.product_id).error = none) →
      ((validateStockForInvoice env db items).warnings ≠ [] ↔
        ∃ it ∈ items, (calculateRemainingStock env db it.product_id).remaining < it.quantity)) := by
  refine ⟨rfl, fun hok => ?_⟩
  have hw : (validateStockForInvoice env db items).warnings
      = items.flatMap (itemWarning env db) := by
    simp [validateStockForInvoice, validate_warnings_eq]
  rw [hw]
  constructor
  · intro hne
    rcases by simpa [List.flatMap_eq_nil_iff] using fun h => hne h with h
    push_neg at h
    obtain ⟨it, hmem, hwne⟩ := h
    exact ⟨it, hmem, (itemWarning_ne_nil env db it (hok it hmem)).mp hwne⟩
  · rintro ⟨it, hmem, hlt⟩ hnil
    rw [List.flatMap_eq_nil_iff] at hnil
    exact (itemWarning_ne_nil env db it (hok it hmem)).mpr hlt (hnil it hmem)

/-- Witness for **C2** at a concrete store and item list. -/
theorem validateStock_never_blocks_witness :
    (validateStockForInvoice StockEnv.ok fixtureDB [⟨1, 7, none⟩]).valid = true ∧
    ((validateStockForInvoice StockEnv.ok fixtureDB [⟨1, 7, none⟩]).warnings ≠ [] ↔
      ∃ it ∈ ([⟨1, 7, none⟩] : List InvoiceItemReq),
        (calculateRemainingStock StockEnv.ok fixtureDB it.product_id).remaining < it.quantity) :=
  ⟨(validateStock_never_blocks StockEnv.ok fixtureDB [⟨1, 7, none⟩]).1,
   (validateStock_never_blocks StockEnv.ok fixtureDB [⟨1, 7, none⟩]).2 (by decide)⟩

/-- Claim C3: with the product row present and the reads succeeding,
`calculateRemainingStock` returns exactly nominal stock minus the summed
invoice-item quantities for that product, with no error and no clamping at
zero; the fixture conjunct exhibits a negative remaining value. -/
theorem calculateRemainingStock_spec (db : RemoteDB) (p : Product)
    (hp : db.products.filter (fun q => decide (q.id = p.id)) = [p]) :
    calculateRemainingStock StockEnv.ok db p.id =
      ⟨p.stock - ((db.invoice_items.filter (fun it => decide (it.product_id = p.id))).map
        ItemRow.quantity).sum, none⟩ ∧
    (calculateRemainingStock StockEnv.ok fixtureDB 1).remaining < 0 :=
  ⟨calculateRemainingStock_eq db p hp, by decide⟩

/-- Witness for **C3** on the fixture store. -/
theorem calculateRemainingStock_spec_witness :
    calculateRemainingStock StockEnv.ok fixtureDB penProduct.id =
      ⟨penProduct.stock - ((fixtureDB.invoice_items.filter
        (fun it => decide (it.product_id = penProduct.id))).map ItemRow.quantity).sum, none⟩ ∧
    (calculateRemainingStock StockEnv.ok fixtureDB 1).remaining < 0 :=
  calculateRemainingStock_spec fixtureDB penProduct (by decide)

theorem length_filter_partition (l : List SyncItem) :
    (l.filter (fun it => decide (it.retryCount.getD 0 = 0))).length
      + (l.filter (fun it => decide (0 < it.retryCount.getD 0 ∧ it.retryCount.getD 0 < 3))).length
      + (l.filter (fun it => decide (3 ≤ it.retryCount.getD 0))).length = l.length := by
  induction l with
  | nil => rfl
  | cons a l ih =>
    simp only [List.filter_cons, List.length_cons]
    by_cases h0 : a.retryCount.getD 0 = 0
    · have e1 := decide_eq_true h0
      have e2 : decide (0 < a.retryCount.getD 0 ∧ a.retryCount.getD 0 < 3) = false :=
        decide_eq_false (by omega)
      have e3 : decide (3 ≤ a.retryCount.getD 0) = false := decide_eq_false (by omega)
      simp only [e1, e2, e3, if_true, Bool.false_eq_true, if_false, List.length_cons]
      omega
    · by_cases h3 : 3 ≤ a.retryCount.getD 0
      · have e1 : decide (a.retryCount.getD 0 = 0) = false := decide_eq_false h0
        have e2 : decide (0 < a.retryCount.getD 0 ∧ a.retryCount.getD 0 < 3) = false :=
          decide_eq_false (by omega)
        have e3 := decide_eq_true h3
        simp only [e1, e2, e3, if_true, Bool.false_eq_true, if_false, List.length_cons]
        omega
      · have e1 : decide (a.retryCount.getD 0 = 0) = false := decide_eq_false h0
        have e2 : decide (0 < a.retryCount.getD 0 ∧ a.retryCount.getD 0 < 3) = true :=
          decide_eq_true (by omega)
        have e3 : decide (3 ≤ a.retryCount.getD 0) = false := decide_eq_false h3
        simp only [e1, e2, e3, if_true, Bool.false_eq_true, if_false, List.length_cons]
        omega

/-- Claim C7: `getSyncQueueStatus` reports `total` as the queue length and
partitions the items by `retryCount || 0` into pending (= 0), retrying
(1 or 2) and failed (≥ 3); the three buckets sum to `total`. -/
theorem getSyncQueueStatus_partition (store : QueueStore) :
    (getSyncQueueStatus store).total = (getSyncQueue store).length ∧
    (getSyncQueueStatus store).pending =
      ((getSyncQueue store).filter (fun it => decide (it.retryCount.getD 0 = 0))).length ∧
    (getSyncQueueStatus store).retrying =
      ((getSyncQueue store).filter (fun it =>
        decide (0 < it.retryCount.getD 0 ∧ it.retryCount.getD 0 < 3))).length ∧
    (getSyncQueueStatus store).failed =
      ((getSyncQueue store).filter (fun it => decide (3 ≤ it.retryCount.getD 0))).length ∧
    (getSyncQueueStatus store).pending + (getSyncQueueStatus store).retrying +
      (getSyncQueueStatus store).failed = (getSyncQueueStatus store).total :=
  ⟨rfl, rfl, rfl, rfl, length_filter_partition (getSyncQueue store)⟩

/-- Claim C5: `enqueueSync` appends a record carrying the given kind and
payload with `retryCount = 0`, the enqueue-time timestamp and the store's
next auto-increment id; the id is fresh relative to every queued item, and a
subsequent `getSyncQueue` read of the durable store lists the new item. -/
theorem enqueueSync_spec (store : QueueStore) (kind : String) (payload : SyncPayload)
    (now : Nat) (hfresh : ∀ it ∈ store.items, it.id < store.nextId) :
    getSyncQueue (enqueueSync store kind payload now) =
      getSyncQueue store ++ [⟨store.nextId, kind, payload, now, some 0⟩] ∧
    (∀ it ∈ getSyncQueue store, ¬ it.id = store.nextId) ∧
    (⟨store.nextId, kind, payload, now, some 0⟩ : SyncItem) ∈
      getSyncQueue (enqueueSync store kind payload now) := by
  refine ⟨rfl, fun it hmem => ?_, ?_⟩
  · exact Nat.ne_of_lt (hfresh it hmem)
  · simp [enqueueSync, getSyncQueue]

/-- Witness for **C5** on a concrete non-empty store. -/
theorem enqueueSync_spec_witness :
    getSyncQueue (enqueueSync ⟨[syncItemA], 2⟩ "invoice:delete" SyncPayload.empty 42) =
      getSyncQueue ⟨[syncItemA], 2⟩ ++ [⟨2, "invoice:delete", SyncPayload.empty, 42, some 0⟩] ∧
    (∀ it ∈ getSyncQueue (⟨[syncItemA], 2⟩ : QueueStore), ¬ it.id = 2) ∧
    (⟨2, "invoice:delete", SyncPayload.empty, 42, some 0⟩ : SyncItem) ∈
      getSyncQueue (enqueueSync ⟨[syncItemA], 2⟩ "invoice:delete" SyncPayload.empty 42) :=
  enqueueSync_spec ⟨[syncItemA], 2⟩ "invoice:delete" SyncPayload.empty 42 (by decide)

end InvoiceApp

namespace InvoiceApp

theorem find?_map_keyUpdate (k : Nat) (v : Int) (pid : Nat) (hne : ¬ pid = k) :
    ∀ (m : List (Nat × Int)),
      ((m.map (fun kv => if kv.1 = k then (k, v) else kv)).find?
         (fun kv => decide (kv.1 = pid))) = m.find? (fun kv => decide (kv.1 = pid)) := by
  intro m
  induction m with
  | nil => rfl
  | cons b m ih =>
    by_cases hbk : b.1 = k
    · have h1 : (if b.1 = k then (k, v) else b) = (k, v) := if_pos hbk
      have hbp : ¬ b.1 = pid := fun h => hne (h ▸ hbk ▸ rfl)
      simp only [List.map_cons, h1, List.find?_cons]
      rw [decide_eq_false (fun h : k = pid => hne h.symm), decide_eq_false hbp]
      exact ih
    · have h1 : (if b.1 = k then (k, v) else b) = b := if_neg hbk
      simp only [List.map_cons, h1, List.find?_cons]
      cases hd : decide (b.1 = pid) with
      | true => rfl
      | false => exact ih

theorem find?_map_keyHit (k : Nat) (v : Int) :
    ∀ (m : List (Nat × Int)), m.any (fun kv => decide (kv.1 = k)) = true →
      ((m.map (fun kv => if kv.1 = k then (k, v) else kv)).find?
         (fun kv => decide (kv.1 = k))) = some (k, v) := by
  intro m
  induction m with
  | nil => intro h; simp at h
  | cons b m ih =>
    intro hany
    by_cases hbk : b.1 = k
    · have h1 : (if b.1 = k then (k, v) else b) = (k, v) := if_pos hbk
      simp [h1, List.find?_cons]
    · have h1 : (if b.1 = k then (k, v) else b) = b := if_neg hbk
      have hany' : m.any (fun kv => decide (kv.1 = k)) = true := by
        simp only [List.any_cons, decide_eq_false hbk, Bool.false_or] at hany
        exact hany
      simp only [List.map_cons, h1, List.find?_cons, decide_eq_false hbk]
      exact ih hany'

theorem mapGetD_mapSet (m : List (Nat × Int)) (k : Nat) (v : Int) (pid : Nat) :
    mapGetD (mapSet m k v) pid = if pid = k then v else mapGetD m pid := by
  unfold mapSet mapGetD
  by_cases hany : m.any (fun kv => decide (kv.1 = k)) = true
  · rw [if_pos hany]
    by_cases hpk : pid = k
    · subst hpk
      rw [find?_map_keyHit pid v m hany, if_pos rfl]
    · rw [find?_map_keyUpdate k v pid hpk m, if_neg hpk]
  · rw [if_neg hany]
    have hnone : m.find? (fun kv => decide (kv.1 = k)) = none := by
      rw [List.find?_eq_none]
      intro x hx hdec
      exact hany (List.any_eq_true.mpr ⟨x, hx, hdec⟩)
    by_cases hpk : pid = k
    · subst hpk
      rw [List.find?_append, hnone]
      simp [if_pos rfl]
    · rw [List.find?_append]
      have htail : ([(k, v)] : List (Nat × Int)).find? (fun kv => decide (kv.1 = pid)) = none := by
        simp [decide_eq_false (fun h : k = pid => hpk h.symm)]
      rw [htail, if_neg hpk]
      cases m.find? (fun kv => decide (kv.1 = pid)) <;> rfl

theorem mapGetD_foldl_used (pid : Nat) :
    ∀ (items : List ItemRow) (m : List (Nat × Int)),
      mapGetD (items.foldl
        (fun m it => mapSet m it.product_id (mapGetD m it.product_id + it.quantity)) m) pid
        = mapGetD m pid +
          ((items.filter (fun it => decide (it.product_id = pid))).map ItemRow.quantity).sum := by
  intro items
  induction items with
  | nil => intro m; simp
  | cons a rest ih =>
    intro m
    simp only [List.foldl_cons, List.filter_cons]
    rw [ih]
    by_cases h : a.product_id = pid
    · subst h
      rw [mapGetD_mapSet, if_pos rfl]
      simp only [decide_true_eq_true, decide_eq_true_eq]
      simp
      omega
    · rw [decide_eq_false h, mapGetD_mapSet]
      rw [if_neg (fun hh : pid = a.product_id => h hh.symm)]
      simp

end InvoiceApp

namespace InvoiceApp

theorem mapGetD_buildUsedByProduct (items : List ItemRow) (pid : Nat) :
    mapGetD (buildUsedByProduct items) pid =
      ((items.filter (fun it => decide (it.product_id = pid))).map ItemRow.quantity).sum := by
  unfold buildUsedByProduct
  rw [mapGetD_foldl_used]
  simp [mapGetD]

/-- Claim C10: for a product uniquely present in the products table (all reads
succeeding), the batch `calculateAllRemainingStock` reports for that product
exactly the remaining value returned by the single-product
`calculateRemainingStock`. -/
theorem batch_single_remaining_agree (db : RemoteDB) (p : Product)
    (hp : db.products.filter (fun q => decide (q.id = p.id)) = [p]) :
    (p, (calculateRemainingStock StockEnv.ok db p.id).remaining) ∈
      (calculateAllRemainingStock StockEnv.ok db).data := by
  have hmem : p ∈ db.products := by
    have h1 : p ∈ db.products.filter (fun q => decide (q.id = p.id)) := by
      rw [hp]; exact List.mem_singleton.mpr rfl
    exact (List.mem_filter.mp h1).1
  rw [calculateRemainingStock_eq db p hp]
  have hdata : (calculateAllRemainingStock StockEnv.ok db).data =
      db.products.map
        (fun q => (q, q.stock - mapGetD (buildUsedByProduct db.invoice_items) q.id)) := by
    simp [calculateAllRemainingStock, StockEnv.ok]
  rw [hdata]
  refine List.mem_map.mpr ⟨p, hmem, ?_⟩
  rw [mapGetD_buildUsedByProduct]

/-- Witness for **C10** on the fixture store. -/
theorem batch_single_remaining_agree_witness :
    (penProduct, (calculateRemainingStock StockEnv.ok fixtureDB penProduct.id).remaining) ∈
      (calculateAllRemainingStock StockEnv.ok fixtureDB).data :=
  batch_single_remaining_agree fixtureDB penProduct (by decide)

end InvoiceApp

namespace InvoiceApp

/-! ## Drain-loop lemmas -/

theorem map_eq_self_of {α : Type _} (l : List α) (f : α → α) (h : ∀ x ∈ l, f x = x) :
    l.map f = l := by
  induction l with
  | nil => rfl
  | cons a l ih =>
    rw [List.map_cons, h a (by simp), ih (fun x hx => h x (by simp [hx]))]

theorem filterMap_eq_self_of {α : Type _} (l : List α) (f : α → Option α)
    (h : ∀ x ∈ l, f x = some x) : l.filterMap f = l := by
  induction l with
  | nil => rfl
  | cons a l ih =>
    rw [List.filterMap_cons, h a (by simp), ih (fun x hx => h x (by simp [hx]))]

theorem drainStep_success (o : SyncItem → ReplayOutcome) (st : QueueStore) (sc ec : Nat)
    (ts : List Notification) (evs : List SyncEvent) (a : SyncItem)
    (h : o a = ReplayOutcome.success) :
    drainStep o ⟨st, sc, ec, ts, evs⟩ a =
      ⟨removeFromSyncQueue st a.id, sc + 1, ec, ts, evs ++ [SyncEvent.replay a.id]⟩ := by
  simp [drainStep, h]

theorem drainStep_failure (o : SyncItem → ReplayOutcome) (st : QueueStore) (sc ec : Nat)
    (ts : List Notification) (evs : List SyncEvent) (a : SyncItem)
    (h : o a = ReplayOutcome.failure) :
    drainStep o ⟨st, sc, ec, ts, evs⟩ a =
      ⟨st, sc, ec + 1, ts, evs ++ [SyncEvent.replay a.id]⟩ := by
  simp [drainStep, h]

theorem drainStep_thrown_lt (o : SyncItem → ReplayOutcome) (st : QueueStore) (sc ec : Nat)
    (ts : List Notification) (evs : List SyncEvent) (a : SyncItem)
    (h : o a = ReplayOutcome.thrown) (hrc : ¬ 3 ≤ a.retryCount.getD 0 + 1) :
    drainStep o ⟨st, sc, ec, ts, evs⟩ a =
      ⟨updateSyncQueueItem st a.id (a.retryCount.getD 0 + 1), sc, ec + 1, ts,
       evs ++ [SyncEvent.replay a.id]⟩ := by
  simp [drainStep, h, hrc]

theorem drainStep_thrown_ge (o : SyncItem → ReplayOutcome) (st : QueueStore) (sc ec : Nat)
    (ts : List Notification) (evs : List SyncEvent) (a : SyncItem)
    (h : o a = ReplayOutcome.thrown) (hrc : 3 ≤ a.retryCount.getD 0 + 1) :
    drainStep o ⟨st, sc, ec, ts, evs⟩ a =
      ⟨removeFromSyncQueue (updateSyncQueueItem st a.id (a.retryCount.getD 0 + 1)) a.id,
       sc, ec + 1, ts ++ [Notification.error (quarantineMsg a.kind (a.retryCount.getD 0 + 1))],
       evs ++ [SyncEvent.replay a.id]⟩ := by
  simp [drainStep, h, hrc]

theorem removeFromSyncQueue_middle (pre post : List SyncItem) (b : SyncItem) (n i : Nat)
    (hb : b.id = i) (hpre : ∀ x ∈ pre, ¬ x.id = i) (hpost : ∀ x ∈ post, ¬ x.id = i) :
    removeFromSyncQueue ⟨pre ++ b :: post, n⟩ i = ⟨pre ++ post, n⟩ := by
  unfold removeFromSyncQueue
  have hpre' : pre.filter (fun it => decide (¬ it.id = i)) = pre :=
    List.filter_eq_self.mpr (fun x hx => decide_eq_true (hpre x hx))
  have hpost' : post.filter (fun it => decide (¬ it.id = i)) = post :=
    List.filter_eq_self.mpr (fun x hx => decide_eq_true (hpost x hx))
  have hbf : (decide (¬ b.id = i)) = false := decide_eq_false (by simp [hb])
  simp only [List.filter_append, List.filter_cons, hbf, hpre', hpost', Bool.false_eq_true,
    if_false]

theorem updateSyncQueueItem_middle (pre post : List SyncItem) (b : SyncItem) (n i rc : Nat)
    (hb : b.id = i) (hpre : ∀ x ∈ pre, ¬ x.id = i) (hpost : ∀ x ∈ post, ¬ x.id = i) :
    updateSyncQueueItem ⟨pre ++ b :: post, n⟩ i rc =
      ⟨pre ++ { b with retryCount := some rc } :: post, n⟩ := by
  unfold updateSyncQueueItem
  have hpre' : pre.map
      (fun it => if it.id = i then { it with retryCount := some rc } else it) = pre :=
    map_eq_self_of pre _ (fun x hx => if_neg (hpre x hx))
  have hpost' : post.map
      (fun it => if it.id = i then { it with retryCount := some rc } else it) = post :=
    map_eq_self_of post _ (fun x hx => if_neg (hpost x hx))
  simp only [List.map_append, List.map_cons, hpre', hpost', if_pos hb]

theorem nodup_ids_middle (done l : List SyncItem) (a : SyncItem)
    (h : ((done ++ a :: l).map SyncItem.id).Nodup) :
    (∀ x ∈ done, ¬ x.id = a.id) ∧ (∀ x ∈ l, ¬ x.id = a.id) ∧
    ((done ++ l).map SyncItem.id).Nodup := by
  rw [List.map_append, List.map_cons] at h
  have h2 := List.nodup_middle.mp h
  rw [List.nodup_cons] at h2
  obtain ⟨hnotin, hrest⟩ := h2
  rw [← List.map_append] at hrest hnotin
  refine ⟨?_, ?_, hrest⟩
  · intro x hx hxe
    exact hnotin (List.mem_map.mpr ⟨x, List.mem_append.mpr (Or.inl hx), hxe⟩)
  · intro x hx hxe
    exact hnotin (List.mem_map.mpr ⟨x, List.mem_append.mpr (Or.inr hx), hxe⟩)

theorem foldl_drainStep_store (o : SyncItem → ReplayOutcome) :
    ∀ (l done : List SyncItem) (n sc ec : Nat) (ts : List Notification)
      (evs : List SyncEvent),
      ((done ++ l).map SyncItem.id).Nodup →
      (l.foldl (drainStep o) ⟨⟨done ++ l, n⟩, sc, ec, ts, evs⟩).store =
        ⟨done ++ l.filterMap (drainItemResult o), n⟩ := by
  intro l
  induction l with
  | nil =>
    intro done n sc ec ts evs _
    simp
  | cons a l ih =>
    intro done n sc ec ts evs hnodup
    obtain ⟨hpre, hpost, hrest⟩ := nodup_ids_middle done l a hnodup
    cases ho : o a with
    | success =>
      have hfa : drainItemResult o a = none := by simp [drainItemResult, ho]
      rw [List.foldl_cons, drainStep_success o _ _ _ _ _ a ho,
        removeFromSyncQueue_middle done l a n a.id rfl hpre hpost,
        ih done n _ _ _ _ hrest, List.filterMap_cons_none hfa]
    | failure =>
      have hfa : drainItemResult o a = some a := by simp [drainItemResult, ho]
      have hx : done ++ a :: l = (done ++ [a]) ++ l := by simp
      rw [List.foldl_cons, drainStep_failure o _ _ _ _ _ a ho]
      rw [hx] at hnodup ⊢
      rw [ih (done ++ [a]) n _ _ _ _ (by simpa using hnodup),
        List.filterMap_cons_some hfa]
      simp
    | thrown =>
      by_cases hge : 3 ≤ a.retryCount.getD 0 + 1
      · have hfa : drainItemResult o a = none := by simp [drainItemResult, ho, hge]
        rw [List.foldl_cons, drainStep_thrown_ge o _ _ _ _ _ a ho hge,
          updateSyncQueueItem_middle done l a n a.id _ rfl hpre hpost,
          removeFromSyncQueue_middle done l { a with retryCount := some (a.retryCount.getD 0 + 1) }
            n a.id rfl hpre hpost,
          ih done n _ _ _ _ hrest, List.filterMap_cons_none hfa]
      · have hfa : drainItemResult o a =
            some { a with retryCount := some (a.retryCount.getD 0 + 1) } := by
          simp [drainItemResult, ho, hge]
        rw [List.foldl_cons, drainStep_thrown_lt o _ _ _ _ _ a ho hge,
          updateSyncQueueItem_middle done l a n a.id _ rfl hpre hpost]
        have hx : done ++ { a with retryCount := some (a.retryCount.getD 0 + 1) } :: l =
            (done ++ [{ a with retryCount := some (a.retryCount.getD 0 + 1) }]) ++ l := by simp
        rw [hx]
        have hnodup' : (((done ++ [{ a with retryCount := some (a.retryCount.getD 0 + 1) }]) ++ l).map
            SyncItem.id).Nodup := by
          have heq : ((done ++ [{ a with retryCount := some (a.retryCount.getD 0 + 1) }]) ++ l).map
              SyncItem.id = (done ++ a :: l).map SyncItem.id := by simp
          rw [heq]
          exact hnodup
        rw [ih (done ++ [SyncItem.mk a.id a.kind a.payload a.timestamp
            (some (a.retryCount.getD 0 + 1))]) n _ _ _ _ hnodup',
          List.filterMap_cons_some hfa]
        simp

theorem foldl_drainStep_toasts (o : SyncItem → ReplayOutcome) :
    ∀ (l : List SyncItem) (acc : DrainAcc),
      (l.foldl (drainStep o) acc).toasts = acc.toasts ++ l.flatMap (drainItemToasts o) := by
  intro l
  induction l with
  | nil => intro acc; simp
  | cons a l ih =>
    intro acc
    rw [List.foldl_cons, ih]
    have hstep : (drainStep o acc a).toasts = acc.toasts ++ drainItemToasts o a := by
      cases ho : o a with
      | success => simp [drainStep, drainItemToasts, ho]
      | failure => simp [drainStep, drainItemToasts, ho]
      | thrown =>
        by_cases hge : 3 ≤ a.retryCount.getD 0 + 1
        · simp [drainStep, drainItemToasts, ho, hge]
        · simp [drainStep, drainItemToasts, ho, hge]
    rw [hstep, List.flatMap_cons, List.append_assoc]

end InvoiceApp

namespace InvoiceApp

/-! ## Sync-pass characterisation -/

theorem syncPendingChanges_run_items (items : List SyncItem) (n : Nat)
    (o : SyncItem → ReplayOutcome) (hne : items ≠ [])
    (hnodup : (items.map SyncItem.id).Nodup) :
    (syncPendingChanges ⟨true, false, ⟨items, n⟩⟩ false o).state.queue.items =
      items.filterMap (drainItemResult o) := by
  cases items with
  | nil => exact absurd rfl hne
  | cons a l =>
    have hfold := foldl_drainStep_store o (a :: l) [] n 0 0 [] [] (by simpa using hnodup)
    simp only [List.nil_append] at hfold
    have hshow : (syncPendingChanges ⟨true, false, ⟨a :: l, n⟩⟩ false o).state.queue =
        ((a :: l).foldl (drainStep o) ⟨⟨a :: l, n⟩, 0, 0, [], []⟩).store := rfl
    rw [hshow, hfold]

theorem mem_queue_after_pass_of_failure (st : SyncManagerState)
    (o : SyncItem → ReplayOutcome) (it : SyncItem) (hmem : it ∈ st.queue.items)
    (hnodup : (st.queue.items.map SyncItem.id).Nodup)
    (hfail : o it = ReplayOutcome.failure) :
    it ∈ (syncPendingChanges st false o).state.queue.items := by
  obtain ⟨onl, ip, items, n⟩ := st
  cases ip with
  | true => exact hmem
  | false =>
    cases onl with
    | false => exact hmem
    | true =>
      cases items with
      | nil => simp at hmem
      | cons a l =>
        rw [syncPendingChanges_run_items (a :: l) n o (by simp) (by simpa using hnodup)]
        exact List.mem_filterMap.mpr ⟨it, hmem, by simp [drainItemResult, hfail]⟩

/-! ## Claim theorems (sync manager) -/

/-- Claim C4: while `syncInProgress` is set, `syncPendingChanges` — called
directly or through `manualSync` — is a no-op: state unchanged, no queue
read, no replay event; and in a pass that does run, the flag is set before
the first suspension point (the trace starts with the flag assignment) and
is cleared at the end of the pass, also when the queue read throws. -/
theorem sync_in_progress_guard (st : SyncManagerState) (rt : Bool)
    (o : SyncItem → ReplayOutcome) :
    (st.syncInProgress = true →
      syncPendingChanges st rt o = ⟨st, [], []⟩ ∧
      (manualSync st rt o).state = st ∧
      (manualSync st rt o).events = []) ∧
    (st.syncInProgress = false → st.isOnline = true →
      ((syncPendingChanges st rt o).events.head? = some SyncEvent.setFlag ∧
       (syncPendingChanges st rt o).events.getLast? = some SyncEvent.clearFlag ∧
       (syncPendingChanges st rt o).state.syncInProgress = false)) := by
  obtain ⟨onl, ip, items, n⟩ := st
  constructor
  · intro hip
    have hip' : ip = true := hip
    subst hip'
    cases onl with
    | true => exact ⟨rfl, rfl, rfl⟩
    | false => exact ⟨rfl, rfl, rfl⟩
  · intro hip hon
    have hip' : ip = false := hip
    have hon' : onl = true := hon
    subst hip'
    subst hon'
    cases items with
    | nil => exact ⟨rfl, rfl, rfl⟩
    | cons a l =>
      cases rt with
      | true => exact ⟨rfl, rfl, rfl⟩
      | false => exact ⟨rfl, List.getLast?_concat _, rfl⟩

/-- Witness for **C4**: a busy manager's pass is a no-op; an idle online
manager's pass sets the flag first and clears it last. -/
theorem sync_in_progress_guard_witness :
    (syncPendingChanges busyState false successOnA = ⟨busyState, [], []⟩ ∧
     (manualSync busyState false successOnA).state = busyState ∧
     (manualSync busyState false successOnA).events = []) ∧
    ((syncPendingChanges idleState false successOnA).events.head? = some SyncEvent.setFlag ∧
     (syncPendingChanges idleState false successOnA).events.getLast? = some SyncEvent.clearFlag ∧
     (syncPendingChanges idleState false successOnA).state.syncInProgress = false) :=
  ⟨(sync_in_progress_guard busyState false successOnA).1 rfl,
   (sync_in_progress_guard idleState false successOnA).2 rfl rfl⟩

/-- Claim C6: a queue item whose replay reports success is removed (no item
with its id remains) by one drain pass, and — every other item's outcome
leaving it in place — the pending count decreases by exactly one. -/
theorem drain_removes_on_success (st : SyncManagerState) (o : SyncItem → ReplayOutcome)
    (item : SyncItem) (hmem : item ∈ st.queue.items)
    (hnodup : (st.queue.items.map SyncItem.id).Nodup)
    (hip : st.syncInProgress = false) (hon : st.isOnline = true)
    (hsucc : o item = ReplayOutcome.success)
    (hothers : ∀ other ∈ st.queue.items, other ≠ item → o other = ReplayOutcome.failure) :
    (∀ it ∈ (syncPendingChanges st false o).state.queue.items, ¬ it.id = item.id) ∧
    getPendingSyncCount (syncPendingChanges st false o).state.queue + 1 =
      getPendingSyncCount st.queue := by
  obtain ⟨onl, ip, items, n⟩ := st
  have hip' : ip = false := hip
  have hon' : onl = true := hon
  subst hip'
  subst hon'
  have hmem' : item ∈ items := hmem
  have hnodup' : (items.map SyncItem.id).Nodup := hnodup
  have hothers' : ∀ other ∈ items, other ≠ item → o other = ReplayOutcome.failure := hothers
  obtain ⟨l1, l2, rfl⟩ := List.append_of_mem hmem'
  obtain ⟨hpre, hpost, _⟩ := nodup_ids_middle l1 l2 item hnodup'
  have hrun := syncPendingChanges_run_items (l1 ++ item :: l2) n o (by simp) hnodup'
  have hl1 : (l1.filterMap (drainItemResult o)) = l1 := by
    refine filterMap_eq_self_of l1 _ (fun x hx => ?_)
    have hne : x ≠ item := fun heq => hpre x hx (by rw [heq])
    simp [drainItemResult, hothers' x (List.mem_append.mpr (Or.inl hx)) hne]
  have hl2 : (l2.filterMap (drainItemResult o)) = l2 := by
    refine filterMap_eq_self_of l2 _ (fun x hx => ?_)
    have hne : x ≠ item := fun heq => hpost x hx (by rw [heq])
    simp [drainItemResult, hothers' x (List.mem_append.mpr (Or.inr (by simp [hx]))) hne]
  have hfm : (l1 ++ item :: l2).filterMap (drainItemResult o) = l1 ++ l2 := by
    rw [List.filterMap_append, List.filterMap_cons_none (by simp [drainItemResult, hsucc]),
      hl1, hl2]
  constructor
  · intro it hit
    rw [hrun, hfm] at hit
    rcases List.mem_append.mp hit with h | h
    · exact hpre it h
    · exact hpost it h
  · simp only [getPendingSyncCount]
    rw [hrun, hfm]
    simp
    omega

/-- Witness for **C6**: of two queued items, replaying the first
successfully removes exactly it and drops the count from 2 to 1. -/
theorem drain_removes_on_success_witness :
    (∀ it ∈ (syncPendingChanges twoItemState false successOnA).state.queue.items,
       ¬ it.id = syncItemA.id) ∧
    getPendingSyncCount (syncPendingChanges twoItemState false successOnA).state.queue + 1 =
      getPendingSyncCount twoItemState.queue :=
  drain_removes_on_success twoItemState successOnA syncItemA (by decide) (by decide)
    rfl rfl (by decide) (by decide)

end InvoiceApp

namespace InvoiceApp

/-- Claim C9: a queue item whose kind is none of the seven handled kinds falls
through to the default case: `processSyncItem` returns `false`, leaves the
remote store untouched and performs no remote call; consequently a drain
pass whose outcomes follow `processSyncItem` never removes such an item
through the success path. -/
theorem unknown_kind_unprocessed (env : RemoteEnv) (db : RemoteDB) (item : SyncItem)
    (hk : ¬ item.kind ∈ handledKinds) :
    processSyncItem env db item = ⟨false, db, []⟩ ∧
    (∀ (st : SyncManagerState), item ∈ st.queue.items →
      (st.queue.items.map SyncItem.id).Nodup →
      item ∈ (syncPendingChanges st false (derivedOutcome env db)).state.queue.items) := by
  have hks : ¬ item.kind = "product:create" ∧ ¬ item.kind = "product:update" ∧
      ¬ item.kind = "product:delete" ∧ ¬ item.kind = "invoice:create" ∧
      ¬ item.kind = "invoice:update" ∧ ¬ item.kind = "invoice:delete" ∧
      ¬ item.kind = "invoice_item:update_price" := by
    simp [handledKinds] at hk
    exact ⟨hk.1, hk.2.1, hk.2.2.1, hk.2.2.2.1, hk.2.2.2.2.1, hk.2.2.2.2.2.1, hk.2.2.2.2.2.2⟩
  have h1 : processSyncItem env db item = ⟨false, db, []⟩ := by
    unfold processSyncItem
    rw [if_neg hks.1, if_neg hks.2.1, if_neg hks.2.2.1, if_neg hks.2.2.2.1,
      if_neg hks.2.2.2.2.1, if_neg hks.2.2.2.2.2.1, if_neg hks.2.2.2.2.2.2]
  refine ⟨h1, fun st hmem hnodup => ?_⟩
  exact mem_queue_after_pass_of_failure st _ item hmem hnodup (by simp [derivedOutcome, h1])

/-- Witness for **C9** with kind `bogus:kind`. -/
theorem unknown_kind_unprocessed_witness :
    processSyncItem (RemoteEnv.ok 10 100) fixtureDB bogusItem = ⟨false, fixtureDB, []⟩ ∧
    bogusItem ∈ (syncPendingChanges bogusState false
      (derivedOutcome (RemoteEnv.ok 10 100) fixtureDB)).state.queue.items :=
  ⟨(unknown_kind_unprocessed (RemoteEnv.ok 10 100) fixtureDB bogusItem (by decide)).1,
   (unknown_kind_unprocessed (RemoteEnv.ok 10 100) fixtureDB bogusItem (by decide)).2
     bogusState (by decide) (by decide)⟩

/-- Claim C8: an `invoice:delete` replay calls the remote store in the order
fetch-items, delete-items, delete-invoice (the invoice delete occurs only
after the items delete); when the items delete reports an error the replay
returns `false` with the remote store unchanged — in particular the invoice
row is untouched. -/
theorem invoice_delete_ordering (env : RemoteEnv) (db : RemoteDB) (item : SyncItem)
    (hkind : item.kind = "invoice:delete") :
    (env.invoiceItemsDeleteErr = true →
      (processSyncItem env db item).ok = false ∧
      (processSyncItem env db item).db = db ∧
      (processSyncItem env db item).calls =
        [RemoteCall.fetchItemsToDelete, RemoteCall.deleteInvoiceItems]) ∧
    ((processSyncItem env db item).calls =
       [RemoteCall.fetchItemsToDelete, RemoteCall.deleteInvoiceItems] ∨
     (processSyncItem env db item).calls =
       [RemoteCall.fetchItemsToDelete, RemoteCall.deleteInvoiceItems,
        RemoteCall.deleteInvoice]) := by
  have hd : processSyncItem env db item = processInvoiceDelete env db item.payload := by
    simp [processSyncItem, hkind]
  constructor
  · intro herr
    refine ⟨?_, ?_, ?_⟩ <;> simp [hd, processInvoiceDelete, herr]
  · by_cases herr : env.invoiceItemsDeleteErr = true
    · left; simp [hd, processInvoiceDelete, herr]
    · by_cases herr2 : env.invoicesDeleteErr = true
      · right; simp [hd, processInvoiceDelete, herr, herr2]
      · right; simp [hd, processInvoiceDelete, herr, herr2]

/-- Witness for **C8** at a concrete invoice and failing items delete. -/
theorem invoice_delete_ordering_witness :
    ((processSyncItem itemsDeleteFailEnv fixtureDB deleteInvoiceItem).ok = false ∧
     (processSyncItem itemsDeleteFailEnv fixtureDB deleteInvoiceItem).db = fixtureDB ∧
     (processSyncItem itemsDeleteFailEnv fixtureDB deleteInvoiceItem).calls =
       [RemoteCall.fetchItemsToDelete, RemoteCall.deleteInvoiceItems]) ∧
    ((processSyncItem itemsDeleteFailEnv fixtureDB deleteInvoiceItem).calls =
       [RemoteCall.fetchItemsToDelete, RemoteCall.deleteInvoiceItems] ∨
     (processSyncItem itemsDeleteFailEnv fixtureDB deleteInvoiceItem).calls =
       [RemoteCall.fetchItemsToDelete, RemoteCall.deleteInvoiceItems,
        RemoteCall.deleteInvoice]) :=
  ⟨(invoice_delete_ordering itemsDeleteFailEnv fixtureDB deleteInvoiceItem rfl).1 rfl,
   (invoice_delete_ordering itemsDeleteFailEnv fixtureDB deleteInvoiceItem rfl).2⟩

end InvoiceApp

namespace InvoiceApp

theorem quarantineMsg_ne_tally (kind : String) (rc : Nat) :
    ¬ Notification.error (quarantineMsg kind rc) = oneFailureTally := by
  intro h
  simp only [oneFailureTally, Notification.error.injEq] at h
  have h3 := congrArg (fun s => s.data.head?) h
  simp only [quarantineMsg, String.data_append] at h3
  simp at h3

/-- Claim C1 counterexample: a queued `product:create` whose remote insert
reports an error on every attempt has `processSyncItem` resolve `false`;
one drain pass — and three successive passes — leave the item queued with
`retryCount` still 0, and the pass emits only the aggregate failure tally:
no retry-count increment, no removal on reaching 3, no quarantine
notification, contrary to the claim. -/
theorem reported_error_keeps_item :
    (processSyncItem failingEnv emptyRemoteDB failingItem).ok = false ∧
    (failingPass failingState).queue.items = [failingItem] ∧
    (failingPass (failingPass (failingPass failingState))).queue.items = [failingItem] ∧
    (syncPendingChanges failingState false failingOutcome).toasts = [oneFailureTally] := by
  exact ⟨rfl, rfl, rfl, rfl⟩

/-- Claim C1 as amended: the retry-increment/quarantine path applies to a queue
item whose per-item processing *throws* (the catch block of the drain loop),
not to a replay that reports an error by resolving `false`.  A single queued
item with `retryCount = 0` whose processing throws on every pass has
`retryCount` 1 after the first pass and 2 after the second, is removed by
the third pass when the count reaches 3, and across the three passes exactly
one quarantine notification — naming the kind and the attempt count 3 — is
emitted; an item whose replay merely reports an error stays queued with its
record (and retry count) unchanged. -/
theorem retry_ceiling_on_thrown (i ts : Nat) (kind : String) (payload : SyncPayload) :
    (thrownPass ⟨true, false, ⟨[⟨i, kind, payload, ts, some 0⟩], i + 1⟩⟩).queue.items =
      [⟨i, kind, payload, ts, some 1⟩] ∧
    (thrownPass (thrownPass ⟨true, false, ⟨[⟨i, kind, payload, ts, some 0⟩], i + 1⟩⟩)).queue.items =
      [⟨i, kind, payload, ts, some 2⟩] ∧
    (thrownPass (thrownPass (thrownPass
        ⟨true, false, ⟨[⟨i, kind, payload, ts, some 0⟩], i + 1⟩⟩))).queue.items = [] ∧
    (syncPendingChanges ⟨true, false, ⟨[⟨i, kind, payload, ts, some 0⟩], i + 1⟩⟩ false
        (fun _ => ReplayOutcome.thrown)).toasts = [oneFailureTally] ∧
    (syncPendingChanges (thrownPass ⟨true, false, ⟨[⟨i, kind, payload, ts, some 0⟩], i + 1⟩⟩)
        false (fun _ => ReplayOutcome.thrown)).toasts = [oneFailureTally] ∧
    (syncPendingChanges (thrownPass (thrownPass
          ⟨true, false, ⟨[⟨i, kind, payload, ts, some 0⟩], i + 1⟩⟩)) false
        (fun _ => ReplayOutcome.thrown)).toasts =
      [Notification.error (quarantineMsg kind 3), oneFailureTally] ∧
    (((syncPendingChanges ⟨true, false, ⟨[⟨i, kind, payload, ts, some 0⟩], i + 1⟩⟩ false
          (fun _ => ReplayOutcome.thrown)).toasts ++
      (syncPendingChanges (thrownPass ⟨true, false, ⟨[⟨i, kind, payload, ts, some 0⟩], i + 1⟩⟩)
          false (fun _ => ReplayOutcome.thrown)).toasts ++
      (syncPendingChanges (thrownPass (thrownPass
            ⟨true, false, ⟨[⟨i, kind, payload, ts, some 0⟩], i + 1⟩⟩)) false
          (fun _ => ReplayOutcome.thrown)).toasts).count
        (Notification.error (quarantineMsg kind 3)) = 1) ∧
    (∀ (st : SyncManagerState) (o : SyncItem → ReplayOutcome) (it : SyncItem),
      it ∈ st.queue.items → (st.queue.items.map SyncItem.id).Nodup →
      o it = ReplayOutcome.failure →
      it ∈ (syncPendingChanges st false o).state.queue.items) := by
  have hset1 : thrownPass ⟨true, false, ⟨[⟨i, kind, payload, ts, some 0⟩], i + 1⟩⟩ =
      ⟨true, false, ⟨[⟨i, kind, payload, ts, some 1⟩], i + 1⟩⟩ := by
    simp [thrownPass, syncPendingChanges, getSyncQueue, getPendingSyncCount, drainStep,
      updateSyncQueueItem, removeFromSyncQueue]
  have hset2 : thrownPass (⟨true, false, ⟨[⟨i, kind, payload, ts, some 1⟩], i + 1⟩⟩ :
      SyncManagerState) = ⟨true, false, ⟨[⟨i, kind, payload, ts, some 2⟩], i + 1⟩⟩ := by
    simp [thrownPass, syncPendingChanges, getSyncQueue, getPendingSyncCount, drainStep,
      updateSyncQueueItem, removeFromSyncQueue]
  have hset3 : thrownPass (⟨true, false, ⟨[⟨i, kind, payload, ts, some 2⟩], i + 1⟩⟩ :
      SyncManagerState) = ⟨true, false, ⟨[], i + 1⟩⟩ := by
    simp [thrownPass, syncPendingChanges, getSyncQueue, getPendingSyncCount, drainStep,
      updateSyncQueueItem, removeFromSyncQueue]
  have ht1 : (syncPendingChanges ⟨true, false, ⟨[⟨i, kind, payload, ts, some 0⟩], i + 1⟩⟩ false
      (fun _ => ReplayOutcome.thrown)).toasts = [oneFailureTally] := by
    simp [syncPendingChanges, getSyncQueue, getPendingSyncCount, drainStep,
      updateSyncQueueItem, removeFromSyncQueue, oneFailureTally]
    decide
  have ht2 : (syncPendingChanges (⟨true, false, ⟨[⟨i, kind, payload, ts, some 1⟩], i + 1⟩⟩ :
      SyncManagerState) false (fun _ => ReplayOutcome.thrown)).toasts = [oneFailureTally] := by
    simp [syncPendingChanges, getSyncQueue, getPendingSyncCount, drainStep,
      updateSyncQueueItem, removeFromSyncQueue, oneFailureTally]
    decide
  have ht3 : (syncPendingChanges (⟨true, false, ⟨[⟨i, kind, payload, ts, some 2⟩], i + 1⟩⟩ :
      SyncManagerState) false (fun _ => ReplayOutcome.thrown)).toasts =
      [Notification.error (quarantineMsg kind 3), oneFailureTally] := by
    simp [syncPendingChanges, getSyncQueue, getPendingSyncCount, drainStep,
      updateSyncQueueItem, removeFromSyncQueue, oneFailureTally]
    decide
  have hbeq : (oneFailureTally == Notification.error (quarantineMsg kind 3)) = false := by
    rw [beq_eq_false_iff_ne]
    exact fun h => quarantineMsg_ne_tally kind 3 h.symm
  refine ⟨by rw [hset1], by rw [hset1, hset2], by rw [hset1, hset2, hset3],
    ht1, by rw [hset1]; exact ht2, by rw [hset1, hset2]; exact ht3, ?_, ?_⟩
  · rw [ht1, hset1, ht2, hset2, ht3]
    simp [List.count_cons, List.count_nil, hbeq]
  · intro st o it hmem hnodup hfail
    exact mem_queue_after_pass_of_failure st o it hmem hnodup hfail

/-- Witness for **C1 (amended)**: the first thrown pass on a concrete item
sets `retryCount` to 1, and a concrete reported-error item stays queued. -/
theorem retry_ceiling_on_thrown_witness :
    (thrownPass ⟨true, false, ⟨[⟨1, "product:create", SyncPayload.empty, 0, some 0⟩], 2⟩⟩).queue.items
      = [⟨1, "product:create", SyncPayload.empty, 0, some 1⟩] ∧
    syncItemA ∈ (syncPendingChanges idleState false alwaysFalseOutcome).state.queue.items :=
  ⟨(retry_ceiling_on_thrown 1 0 "product:create" SyncPayload.empty).1,
   (retry_ceiling_on_thrown 1 0 "product:create" SyncPayload.empty).2.2.2.2.2.2.2 idleState
     alwaysFalseOutcome syncItemA (by decide) (by decide) rfl⟩

end InvoiceApp
